import Mathlib

/-!
Verification development for the medical triage conversation evaluation tool
(`app.py`). The Streamlit session-state dictionary, the taxonomy loader, the
three-step annotation transition, and the result/export pages are shallowly
embedded as executable Lean definitions, and the documented properties of the
annotation session are proved about them.

Python dictionaries keyed by strings are modelled as association lists in
insertion order; wall-clock measurements (`time.time()`) are modelled as exact
rationals passed in explicitly.
-/

/-- Lookup in a Python-style dict modelled as an association list:
the value of the first (and, for genuine dicts, only) entry carrying key `k`. -/
def dictGet {α : Type} : List (String × α) → String → Option α
  | [], _ => none
  | p :: d, k => if p.1 = k then some p.2 else dictGet d k

/-- Python dict assignment `d[k] = v`: replaces the entry in place when the key
is present, otherwise appends the new entry at the end (insertion order). -/
def dictInsert {α : Type} (d : List (String × α)) (k : String) (v : α) :
    List (String × α) :=
  if (dictGet d k).isSome then d.map (fun p => if p.1 = k then (k, v) else p)
  else d ++ [(k, v)]

/-- Python `d.pop(k, default)`'s effect on the dict: all entries carrying key
`k` are removed (a genuine dict has at most one). -/
def dictPop {α : Type} (d : List (String × α)) (k : String) : List (String × α) :=
  d.filter (fun p => p.1 ≠ k)

/-!
## Rounding

`round(x, 2)` in the source rounds an elapsed wall-clock measurement to two
decimal places before it is stored (Python rounds ties to even). Elapsed times
are modelled as exact rationals.
-/
/-- Round a rational to the nearest integer, ties to even
(the rounding used by Python's `round`). -/
def roundHalfToEven (q : ℚ) : ℤ :=
  let f := ⌊q⌋
  if q - f < 1 / 2 then f
  else if (1 : ℚ) / 2 < q - f then f + 1
  else if f % 2 = 0 then f else f + 1

/-- `round(x, 2)` from the source: round to two decimal places. -/
def round2 (q : ℚ) : ℚ := (roundHalfToEven (q * 100) : ℚ) / 100

/-!
## Data model

`load_data` builds one record per spreadsheet row; the fields the session logic
reads are embedded (the dialogue transcript itself is only rendered, and is
kept as an opaque payload string). `major_categories` / `sub_categories` model
the `item.get("major_categories", [])` / `item.get("sub_categories", [])`
fallback lists, whose keys `load_data` never populates (absent key = `[]`). -/
structure Item where
  id : Int
  conversation : String := ""
  age : String := ""
  llm_major : String := ""
  llm_sub : String := ""
  llm_ktas : String := ""
  major_categories : List String := []
  sub_categories : List String := []
deriving DecidableEq

/-- One entry of `st.session_state.results`: a Python dict whose possible keys
are `major`, `sub`, `ktas`, `time_major`, `time_sub`, `time_ktas`; an absent
key is `none`. Temporary (`…_temp`) entries carry only the first four. -/
structure ResultRecord where
  major : Option String := none
  sub : Option String := none
  ktas : Option String := none
  time_major : Option ℚ := none
  time_sub : Option ℚ := none
  time_ktas : Option ℚ := none
deriving DecidableEq

/-- `{ '성인': {major: [subs]}, '소아': … }` from `load_categories`. -/
abbrev AllCatMap := List (String × List (String × List String))

/-- The evaluation steps, small integers exactly as in the source. -/
def STEP_MAJOR : Nat := 0

def STEP_SUB : Nat := 1

def STEP_KTAS : Nat := 2

/-- The fixed, bracket-independent list of the five KTAS triage levels. -/
def KTAS_OPTIONS : List String :=
  [ "Level 1 - 즉각 소생 (Resuscitation)",
    "Level 2 - 긴급 (Emergency)",
    "Level 3 - 응급 (Urgent)",
    "Level 4 - 준응급 (Less Urgent)",
    "Level 5 - 비응급 (Non-Urgent)" ]

/-- `st.session_state` for this app: the fields seeded by
`init_session_state`, with the same defaults. -/
structure SessionState where
  page : String := "login"
  evaluator_id : String := ""
  version : String := "ver1"
  current_index : Nat := 0
  current_step : Nat := STEP_MAJOR
  results : List (String × ResultRecord) := []
  data : Option (List Item) := none
  categories : Option AllCatMap := none
  step_start_time : Option ℚ := none
  start_index : Nat := 0
  temp_major : Option String := none
deriving DecidableEq

/-- The state `init_session_state` produces in a fresh session
(all defaults). -/
def init_session_state : SessionState := {}

/-!
## Taxonomy loading (`load_categories`)
-/
/-- One stripped row of a `categories.xlsx` sheet: (대분류, 중분류). -/
abbrev CatRow := String × String

/-- One iteration of the `load_categories` row loop:
create the major's (ordered) bucket if new, then append the sub-category
unless it is already present. -/
def addCatRow (m : List (String × List String)) (r : CatRow) :
    List (String × List String) :=
  let m1 := if (dictGet m r.1).isSome then m else m ++ [(r.1, [])]
  let cur := (dictGet m1 r.1).getD []
  if r.2 ∈ cur then m1 else dictInsert m1 r.1 (cur ++ [r.2])

/-- The per-sheet map of `load_categories`: major → ordered unique sub-list. -/
def buildCatMap (rows : List CatRow) : List (String × List String) :=
  rows.foldl addCatRow []

/-- `load_categories`: reads the sheets `성인` and `소아` (a missing sheet is
skipped); returns `none` when no sheet could be read
(`all_cat_map if all_cat_map else None`). -/
def load_categories (adult ped : Option (List CatRow)) : Option AllCatMap :=
  let m0 : AllCatMap := []
  let m1 := match adult with
    | some rows => dictInsert m0 "성인" (buildCatMap rows)
    | none => m0
  let m2 := match ped with
    | some rows => dictInsert m1 "소아" (buildCatMap rows)
    | none => m1
  if m2.isEmpty then none else some m2

/-- `_get_cat_map_for_item`: the sheet an item's `나이` value selects —
`소아` exactly for `15세 미만`, otherwise `성인`; `None` when no taxonomy is
loaded (`if not all_cat_map`). -/
def get_cat_map_for_item (categories : Option AllCatMap) (item : Item) :
    Option (List (String × List String)) :=
  match categories with
  | none => none
  | some all =>
    if all.isEmpty then none
    else if item.age = "15세 미만" then dictGet all "소아"
    else dictGet all "성인"

/-- `get_sub_categories_for_major`: the sub-category options for a chosen
major, falling back to the item's own `sub_categories` when the major is not
in the item's sheet (or there is no taxonomy). -/
def get_sub_categories_for_major (categories : Option AllCatMap)
    (major_category : String) (item : Item) : List String :=
  match get_cat_map_for_item categories item with
  | some cat_map =>
    if cat_map.isEmpty then item.sub_categories
    else
      match dictGet cat_map major_category with
      | some subs => subs
      | none => item.sub_categories
  | none => item.sub_categories

/-- `get_major_categories`: the major options, falling back to the item's own
`major_categories` when the item's sheet is missing or empty. -/
def get_major_categories (categories : Option AllCatMap) (item : Item) :
    List String :=
  match get_cat_map_for_item categories item with
  | some cat_map =>
    if cat_map.isEmpty then item.major_categories
    else cat_map.map (fun p => p.1)
  | none => item.major_categories

/-!
## Session operations
-/
/-- Python `str.strip()`: leading and trailing whitespace removed. -/
def pyStrip (str : String) : String :=
  ⟨((str.data.dropWhile Char.isWhitespace).reverse.dropWhile Char.isWhitespace).reverse⟩

/-- Python `str.endswith(suffix)`. -/
def strEndsWith (str suffix : String) : Bool :=
  suffix.data.isSuffixOf str.data

/-- `st.session_state.step_start_time or time.time()`: Python `or` falls back
to the current clock when the stored start is `None` (or the falsy `0.0`). -/
def or_time (step_start_time : Option ℚ) (now : ℚ) : ℚ :=
  match step_start_time with
  | some t => if t = 0 then now else t
  | none => now

/-- The `평가 시작` button of `login_page`: with a non-blank identifier it
seeds the session and moves to the evaluation page; with a blank one it only
shows an error and changes nothing. `start_number` is the 1-based problem
number chosen in the UI; `data` and `categories` stand for the freshly loaded
spreadsheet contents. -/
def login_start (s : SessionState) (evaluator_id version : String)
    (data : List Item) (categories : Option AllCatMap) (start_number : Nat)
    (now : ℚ) : SessionState :=
  if pyStrip evaluator_id ≠ "" then
    { s with
      evaluator_id := pyStrip evaluator_id
      version := version
      data := some data
      categories := categories
      current_index := start_number - 1
      start_index := start_number - 1
      current_step := STEP_MAJOR
      step_start_time := some now
      temp_major := none
      page := "evaluation" }
  else s

/-- The option list offered at the `중분류` (Sub) step of `evaluation_page`:
determined by the previously chosen major (`temp_major`); a falsy
`selected_major` (absent or empty) degrades to the item's own list. -/
def sub_step_options (s : SessionState) (item : Item) : List String :=
  match s.temp_major with
  | some selected_major =>
    if selected_major = "" then item.sub_categories
    else get_sub_categories_for_major s.categories selected_major item
  | none => item.sub_categories

/-- The option list `evaluation_page` offers at each step. -/
def current_options (s : SessionState) (item : Item) : List String :=
  if s.current_step = STEP_MAJOR then get_major_categories s.categories item
  else if s.current_step = STEP_SUB then sub_step_options s item
  else if s.current_step = STEP_KTAS then KTAS_OPTIONS
  else []

/-- The `다음` button of `evaluation_page`. `none` means no confirmation can
happen: no data loaded (the page redirects to login), the pointer ran past the
end (the page redirects to the result page — the session is complete), or
nothing is selected (the button is disabled; this is the realization of the
invalid-state condition). Otherwise the successor state is returned:
* at `STEP_MAJOR` a fresh `…_temp` record stores the major and its time;
* at `STEP_SUB` the temp record gains the sub-category and its time;
* at `STEP_KTAS` the temp record is popped and the finalized record is written
  under the item's id, the pointer advances, and the step cycles to Major.
Every branch restarts the step timer. -/
def evaluation_confirm (s : SessionState) (selected_value : Option String)
    (now : ℚ) : Option SessionState :=
  match s.data with
  | none => none
  | some data =>
    match data[s.current_index]? with
    | none => none
    | some item =>
      match selected_value with
      | none => none
      | some v =>
        let item_id := toString item.id
        let elapsed := now - or_time s.step_start_time now
        if s.current_step = STEP_MAJOR then
          some { s with
            temp_major := some v
            results := dictInsert s.results (item_id ++ "_temp")
              { major := some v, time_major := some (round2 elapsed) }
            current_step := STEP_SUB
            step_start_time := some now }
        else if s.current_step = STEP_SUB then
          let temp := (dictGet s.results (item_id ++ "_temp")).getD {}
          some { s with
            results := dictInsert s.results (item_id ++ "_temp")
              { temp with sub := some v, time_sub := some (round2 elapsed) }
            current_step := STEP_KTAS
            step_start_time := some now }
        else if s.current_step = STEP_KTAS then
          let temp := (dictGet s.results (item_id ++ "_temp")).getD {}
          some { s with
            results := dictInsert (dictPop s.results (item_id ++ "_temp")) item_id
              { major := some (temp.major.getD "")
                sub := some (temp.sub.getD "")
                ktas := some v
                time_major := some (temp.time_major.getD 0)
                time_sub := some (temp.time_sub.getD 0)
                time_ktas := some (round2 elapsed) }
            current_index := s.current_index + 1
            current_step := STEP_MAJOR
            temp_major := none
            step_start_time := some now }
        else
          some { s with step_start_time := some now }

/-- The session state after a click on `다음`: unchanged whenever no
confirmation is possible. -/
def evaluation_apply (s : SessionState) (selected_value : Option String)
    (now : ℚ) : SessionState :=
  (evaluation_confirm s selected_value now).getD s

/-- The progress header of `evaluation_page`:
`completed = len(st.session_state.results)` out of `total = len(data)`. -/
def evaluation_progress (s : SessionState) : Nat × Nat :=
  (s.results.length, (s.data.getD []).length)

/-- `final_results` of `result_page`: the entries of `results` whose key does
not end in `_temp`. -/
def finalResults (results : List (String × ResultRecord)) :
    List (String × ResultRecord) :=
  results.filter (fun p => !(strEndsWith p.1 "_temp"))

/-- The completed count of `result_page`: finalized records only. -/
def result_progress (s : SessionState) : Nat × Nat :=
  ((finalResults s.results).length, (s.data.getD []).length)

/-- One output row of `result_page` (a finalized record is written with all
keys present, so the `.getD` defaults never fire on reachable states). -/
structure Row where
  index : Int
  evaluator : String
  age : String
  major : String
  sub : String
  ktas : String
  time_major : Option ℚ
  time_sub : Option ℚ
  time_ktas : Option ℚ
deriving DecidableEq

/-- The row `result_page` builds for one confirmed item. -/
def toRow (s : SessionState) (item : Item) (result : ResultRecord) : Row :=
  { index := item.id
    evaluator := s.evaluator_id
    age := item.age
    major := result.major.getD ""
    sub := result.sub.getD ""
    ktas := result.ktas.getD ""
    time_major := result.time_major
    time_sub := result.time_sub
    time_ktas := result.time_ktas }

/-- The row sequence of `result_page`: one row per item of the original data
order that has a finalized record; other items contribute nothing. -/
def result_rows (s : SessionState) : List Row :=
  (s.data.getD []).filterMap (fun item =>
    match dictGet (finalResults s.results) (toString item.id) with
    | some result => some (toRow s item result)
    | none => none)

/-- The sidebar's `처음부터 다시 시작` button: every `st.session_state` key is
deleted and `init_session_state` refills the defaults on rerun. -/
def session_reset (_s : SessionState) : SessionState := init_session_state

/-- Concrete session at the Major step used to witness claim C5. -/
def c5s : SessionState :=
  { init_session_state with
    page := "evaluation"
    evaluator_id := "E1"
    data := some [{ id := 3, age := "15세 이상" }]
    step_start_time := some 1 }

/-- Concrete two-sheet taxonomy used to witness claim C6. -/
def c6all : AllCatMap :=
  [("성인", [("흉통", ["심장"])]), ("소아", [("발열", ["바이러스"])])]

/-- Item used for the concrete progress computation of claim C1. -/
def c1_item : Item := { id := 7, age := "15세 이상", major_categories := ["Chest"] }

/-- Reachable session for claim C1: login, then confirm only the Major step of
the first item, leaving its temporary record pending. -/
def c1s : SessionState :=
  evaluation_apply (login_start init_session_state "E1" "ver1" [c1_item] none 1 1)
    (some "Chest") 2

/-- A finalized record present before login, for the claim C3 analysis. -/
def c3_rec : ResultRecord :=
  { major := some "Abdominal", sub := some "Appendicitis", ktas := some "L3",
    time_major := some 2, time_sub := some 3, time_ktas := some 4 }

/-- Session sitting at the login page with one confirmed record. -/
def c3s : SessionState := { init_session_state with results := [("9", c3_rec)] }

/-- Item used to witness claim C2. -/
def c2_item : Item := { id := 12, age := "15세 이상" }

/-- Pending record used to witness claim C2. -/
def c2_tr : ResultRecord :=
  { major := some "Headache", sub := some "Migraine",
    time_major := some 2, time_sub := some 3 }

/-- Concrete KTAS-step session used to witness claim C2. -/
def c2s : SessionState :=
  { init_session_state with
    page := "evaluation"
    evaluator_id := "E7"
    data := some [c2_item]
    current_step := STEP_KTAS
    results := [("12_temp", c2_tr)]
    step_start_time := some 10
    temp_major := some "Headache" }

/-- Item used to witness claim C9. -/
def c9_item : Item := { id := 4 }

/-- Concrete KTAS-step session with no pending record, witnessing claim C9. -/
def c9s : SessionState :=
  { init_session_state with
    page := "evaluation"
    evaluator_id := "E2"
    data := some [c9_item]
    current_step := STEP_KTAS
    step_start_time := some 5 }

/-- Item used to witness claim C10. -/
def c10_item : Item := { id := 3, major_categories := ["Chest"] }

/-- Concrete Major-step session witnessing claim C10; the measured elapsed
time 1.234 s is not representable in two decimals, so the stored value
really is the rounding. -/
def c10s : SessionState :=
  { init_session_state with
    page := "evaluation"
    evaluator_id := "E3"
    data := some [c10_item]
    step_start_time := some 1 }

/-!
## Taxonomy characterization (claim C4)
-/
/-- One step of first-appearance deduplication: append unless present. -/
def dedupAppend (c : List String) (s : String) : List String :=
  if s ∈ c then c else c ++ [s]

/-- First-appearance deduplication of `l`, continuing the already-seen list
`c`. `dedupInto [] l` keeps the first occurrence of every element of `l`, in
order. -/
def dedupInto (c : List String) (l : List String) : List String :=
  l.foldl dedupAppend c

/-- The sub-categories a sheet lists under major `k`, in source order and with
multiplicity. -/
def subsFor (rows : List CatRow) (k : String) : List String :=
  (rows.filter (fun r => r.1 = k)).map (fun r => r.2)

/-- Adult sheet rows for the claim C4 witness: the major `Chest` lists `A`
twice around `B`. -/
def c4rows : List CatRow := [("Chest", "A"), ("Chest", "B"), ("Chest", "A")]

/-- Adult item (empty age) for the claim C4 witness. -/
def c4_item : Item := { id := 21 }

/-- Pediatric item for the claim C4 witness; the pediatric sheet is missing,
so its own default sub-list applies. -/
def c4_item_ped : Item := { id := 22, age := "15세 미만", sub_categories := ["P1"] }

/-- Concrete Sub-step session for the claim C4 witness. -/
def c4s : SessionState :=
  { init_session_state with
    page := "evaluation"
    data := some [c4_item]
    categories := load_categories (some c4rows) none
    current_step := STEP_SUB
    temp_major := some "Chest" }

/-- Five items for the claim C7 witness. -/
def c7_items : List Item :=
  [{ id := 1 }, { id := 2 }, { id := 3 }, { id := 4 }, { id := 5 }]

/-- Finalized record of item 1 for the claim C7 witness. -/
def c7_r1 : ResultRecord :=
  { major := some "M1", sub := some "S1", ktas := some "K1",
    time_major := some 1, time_sub := some 1, time_ktas := some 1 }

/-- Finalized record of item 3 for the claim C7 witness. -/
def c7_r3 : ResultRecord :=
  { major := some "M3", sub := some "S3", ktas := some "K3",
    time_major := some 1, time_sub := some 1, time_ktas := some 1 }

/-- Session for the claim C7 witness: items 1 and 3 finalized, item 4 has a
pending temp record, session sits mid-way at the Sub step. -/
def c7s : SessionState :=
  { init_session_state with
    page := "evaluation"
    evaluator_id := "E9"
    data := some c7_items
    current_index := 3
    current_step := STEP_SUB
    results := [("1", c7_r1), ("3", c7_r3),
      ("4_temp", { major := some "M4", time_major := some 1 })] }

/-! ## Lemmas and claim theorems -/

theorem dictGet_nil {α : Type} (k : String) :
    dictGet ([] : List (String × α)) k = none := rfl

theorem dictGet_cons {α : Type} (p : String × α) (d : List (String × α)) (k : String) :
    dictGet (p :: d) k = if p.1 = k then some p.2 else dictGet d k := rfl

theorem dictGet_append_of_none {α : Type} (d e : List (String × α)) (k : String)
    (h : dictGet d k = none) : dictGet (d ++ e) k = dictGet e k := by
  induction d with
  | nil => simp
  | cons p d ih =>
    rw [dictGet_cons] at h
    by_cases hp : p.1 = k
    · simp [hp] at h
    · rw [if_neg hp] at h
      rw [List.cons_append, dictGet_cons, if_neg hp]
      exact ih h

theorem dictGet_map_replace_self {α : Type} (d : List (String × α)) (k : String) (v : α)
    (h : (dictGet d k).isSome = true) :
    dictGet (d.map (fun p => if p.1 = k then (k, v) else p)) k = some v := by
  induction d with
  | nil => simp [dictGet] at h
  | cons p d ih =>
    by_cases hp : p.1 = k
    · simp [dictGet_cons, hp]
    · rw [dictGet_cons, if_neg hp] at h
      simp only [List.map_cons, if_neg hp]
      rw [dictGet_cons, if_neg hp]
      exact ih h

theorem dictGet_map_replace_ne {α : Type} (d : List (String × α)) (k k' : String) (v : α)
    (h : k' ≠ k) :
    dictGet (d.map (fun p => if p.1 = k then (k, v) else p)) k' = dictGet d k' := by
  induction d with
  | nil => rfl
  | cons p d ih =>
    by_cases hp : p.1 = k
    · have h1 : ¬ (k = k') := fun hc => h hc.symm
      have h2 : ¬ (p.1 = k') := by rw [hp]; exact h1
      simp only [List.map_cons, if_pos hp]
      rw [dictGet_cons, dictGet_cons, if_neg h1, if_neg h2]
      exact ih
    · simp only [List.map_cons, if_neg hp]
      rw [dictGet_cons, dictGet_cons]
      by_cases hp' : p.1 = k'
      · rw [if_pos hp', if_pos hp']
      · rw [if_neg hp', if_neg hp']
        exact ih

theorem dictGet_insert_self {α : Type} (d : List (String × α)) (k : String) (v : α) :
    dictGet (dictInsert d k v) k = some v := by
  unfold dictInsert
  by_cases hs : (dictGet d k).isSome = true
  · rw [if_pos hs]
    exact dictGet_map_replace_self d k v hs
  · rw [if_neg hs]
    have hnone : dictGet d k = none := by
      cases hd : dictGet d k
      · rfl
      · rw [hd] at hs; simp at hs
    rw [dictGet_append_of_none d _ k hnone]
    simp [dictGet_cons]

theorem dictGet_insert_ne {α : Type} (d : List (String × α)) (k k' : String) (v : α)
    (h : k' ≠ k) : dictGet (dictInsert d k v) k' = dictGet d k' := by
  unfold dictInsert
  by_cases hs : (dictGet d k).isSome = true
  · rw [if_pos hs]
    exact dictGet_map_replace_ne d k k' v h
  · rw [if_neg hs]
    induction d with
    | nil =>
      rw [List.nil_append, dictGet_cons, if_neg (fun hc => h hc.symm)]
    | cons p d ih =>
      rw [List.cons_append, dictGet_cons, dictGet_cons]
      by_cases hp' : p.1 = k'
      · rw [if_pos hp', if_pos hp']
      · rw [if_neg hp', if_neg hp']
        by_cases hpk : (dictGet d k).isSome = true
        · rw [dictGet_cons] at hs
          by_cases hpk2 : p.1 = k
          · rw [if_pos hpk2] at hs; simp at hs
          · rw [if_neg hpk2] at hs; exact absurd hpk hs
        · exact ih hpk

theorem dictGet_pop_self {α : Type} (d : List (String × α)) (k : String) :
    dictGet (dictPop d k) k = none := by
  induction d with
  | nil => rfl
  | cons p d ih =>
    unfold dictPop at ih ⊢
    rw [List.filter_cons]
    by_cases hp : p.1 = k
    · rw [if_neg (by simp [hp])]
      exact ih
    · rw [if_pos (by simp [hp]), dictGet_cons, if_neg hp]
      exact ih

theorem dictGet_pop_ne {α : Type} (d : List (String × α)) (k k' : String)
    (h : k' ≠ k) : dictGet (dictPop d k) k' = dictGet d k' := by
  induction d with
  | nil => rfl
  | cons p d ih =>
    unfold dictPop at ih ⊢
    rw [List.filter_cons]
    by_cases hp : p.1 = k
    · have h2 : ¬ (p.1 = k') := by rw [hp]; exact fun hc => h hc.symm
      rw [if_neg (by simp [hp]), dictGet_cons, if_neg h2]
      exact ih
    · rw [if_pos (by simp [hp]), dictGet_cons, dictGet_cons]
      by_cases hp' : p.1 = k'
      · rw [if_pos hp', if_pos hp']
      · rw [if_neg hp', if_neg hp']
        exact ih

/-- Looking a key up commutes with filtering the dict by a predicate on keys,
provided the key itself satisfies the predicate. -/
theorem dictGet_filter_of_key {α : Type} (d : List (String × α)) (k : String)
    (p : String → Bool) (hp : p k = true) :
    dictGet (d.filter (fun q => p q.1)) k = dictGet d k := by
  induction d with
  | nil => rfl
  | cons q d ih =>
    rw [List.filter_cons]
    by_cases hq : q.1 = k
    · have hq2 : p q.1 = true := by rw [hq]; exact hp
      rw [if_pos hq2]
      simp only [dictGet_cons, if_pos hq]
    · cases hpq : p q.1 with
      | true =>
        rw [if_pos rfl, dictGet_cons, dictGet_cons, if_neg hq, if_neg hq]
        exact ih
      | false =>
        rw [if_neg (by simp), dictGet_cons, if_neg hq]
        exact ih

theorem round2_den (q : ℚ) : ∃ n : ℤ, round2 q = (n : ℚ) / 100 :=
  ⟨roundHalfToEven (q * 100), rfl⟩

/-!
## Claim theorems
-/
/-- Claim C8: the session reset takes no information from the current state and
returns every field — page, evaluator id, mode, pointer, step, pending
selection, and all (confirmed and temporary) records — to its
`init_session_state` default, i.e. to the state of a session that never called
start. -/
theorem claim_c8_reset_total (s : SessionState) :
    session_reset s = init_session_state
    ∧ (session_reset s).page = "login"
    ∧ (session_reset s).evaluator_id = ""
    ∧ (session_reset s).version = "ver1"
    ∧ (session_reset s).current_index = 0
    ∧ (session_reset s).current_step = STEP_MAJOR
    ∧ (session_reset s).results = []
    ∧ (session_reset s).data = none
    ∧ (session_reset s).categories = none
    ∧ (session_reset s).step_start_time = none
    ∧ (session_reset s).start_index = 0
    ∧ (session_reset s).temp_major = none :=
  ⟨rfl, rfl, rfl, rfl, rfl, rfl, rfl, rfl, rfl, rfl, rfl, rfl⟩

/-- Claim C5: at the Major step a confirmation with no selected value never
happens (the `다음` button is disabled — the code's realization of the
invalid-state condition): `evaluation_confirm` yields no successor state, and
the state the page keeps is unchanged in every field, in particular pointer,
step and pending selection. -/
theorem claim_c5_confirm_none_fails (s : SessionState) (now : ℚ)
    (hstep : s.current_step = STEP_MAJOR) :
    evaluation_confirm s none now = none
    ∧ evaluation_apply s none now = s
    ∧ (evaluation_apply s none now).current_index = s.current_index
    ∧ (evaluation_apply s none now).current_step = s.current_step
    ∧ (evaluation_apply s none now).temp_major = s.temp_major
    ∧ (evaluation_apply s none now).results = s.results := by
  have h : evaluation_confirm s none now = none := by
    unfold evaluation_confirm
    cases s.data with
    | none => rfl
    | some data =>
      dsimp only
      cases data[s.current_index]? with
      | none => rfl
      | some item => rfl
  have h2 : evaluation_apply s none now = s := by
    unfold evaluation_apply
    rw [h]
    rfl
  exact ⟨h, h2, by rw [h2], by rw [h2], by rw [h2], by rw [h2]⟩

/-- Witness for claim C5 at a concrete Major-step session. -/
theorem claim_c5_confirm_none_fails_witness :
    evaluation_confirm c5s none 5 = none
    ∧ evaluation_apply c5s none 5 = c5s
    ∧ (evaluation_apply c5s none 5).current_index = c5s.current_index
    ∧ (evaluation_apply c5s none 5).current_step = c5s.current_step
    ∧ (evaluation_apply c5s none 5).temp_major = c5s.temp_major
    ∧ (evaluation_apply c5s none 5).results = c5s.results :=
  claim_c5_confirm_none_fails c5s 5 rfl

/-- Claim C6: only the exact marker `15세 미만` selects the pediatric sheet;
any other age value (empty or unrecognized included) makes the taxonomy lookup
— hence both the Major-step and the Sub-step option queries — use the adult
sheet `성인`, exactly as for an explicitly adult item. -/
theorem claim_c6_bracket_default_adult (all : AllCatMap) (item : Item) :
    (item.age ≠ "15세 미만" →
      get_cat_map_for_item (some all) item = dictGet all "성인"
      ∧ get_major_categories (some all) item
          = get_major_categories (some all) { item with age := "15세 이상" }
      ∧ ∀ m, get_sub_categories_for_major (some all) m item
          = get_sub_categories_for_major (some all) m { item with age := "15세 이상" })
    ∧ (item.age = "15세 미만" →
      get_cat_map_for_item (some all) item = dictGet all "소아") := by
  have hne : ("15세 이상" : String) ≠ "15세 미만" := by decide
  constructor
  · intro hage
    refine ⟨?_, ?_, ?_⟩
    · cases all with
      | nil => simp [get_cat_map_for_item, hage, dictGet]
      | cons p rest => simp [get_cat_map_for_item, hage, List.isEmpty]
    · simp [get_major_categories, get_cat_map_for_item, hage, hne]
    · intro m
      simp [get_sub_categories_for_major, get_cat_map_for_item, hage, hne]
  · intro hage
    cases all with
    | nil => simp [get_cat_map_for_item, hage, dictGet]
    | cons p rest => simp [get_cat_map_for_item, hage, List.isEmpty]

/-- Witness for claim C6: an item with an empty (unrecognized) age value uses
the adult sheet; the exact pediatric marker selects the pediatric sheet. -/
theorem claim_c6_bracket_default_adult_witness :
    get_cat_map_for_item (some c6all) { id := 1, age := "" } = dictGet c6all "성인"
    ∧ get_cat_map_for_item (some c6all) { id := 2, age := "15세 미만" }
        = dictGet c6all "소아" :=
  ⟨((claim_c6_bracket_default_adult c6all { id := 1, age := "" }).1 (by decide)).1,
   (claim_c6_bracket_default_adult c6all { id := 2, age := "15세 미만" }).2 rfl⟩

/-- An item-id key is never equal to its own `…_temp` key. -/
theorem append_temp_ne (k : String) : ¬ (k ++ "_temp" = k) := by
  intro h
  have hd : (k ++ "_temp").data = k.data := congrArg String.data h
  have hd2 : k.data ++ "_temp".data = k.data := hd
  have hlen := congrArg List.length hd2
  rw [List.length_append] at hlen
  simp at hlen

/-- A key that does not end in `_temp` survives the `final_results` filter,
so its lookup is unchanged. -/
theorem dictGet_finalResults (results : List (String × ResultRecord)) (k : String)
    (hk : strEndsWith k "_temp" = false) :
    dictGet (finalResults results) k = dictGet results k := by
  unfold finalResults
  exact dictGet_filter_of_key results k (fun s => !(strEndsWith s "_temp")) (by simp [hk])

/-- Unfolding of the `다음` handler at the KTAS step. -/
theorem evaluation_confirm_ktas (s : SessionState) (data : List Item) (item : Item)
    (v : String) (now : ℚ) (hdata : s.data = some data)
    (hitem : data[s.current_index]? = some item) (hstep : s.current_step = STEP_KTAS) :
    evaluation_confirm s (some v) now =
      some { s with
        results := dictInsert (dictPop s.results (toString item.id ++ "_temp"))
          (toString item.id)
          { major := some ((((dictGet s.results (toString item.id ++ "_temp")).getD {}).major).getD "")
            sub := some ((((dictGet s.results (toString item.id ++ "_temp")).getD {}).sub).getD "")
            ktas := some v
            time_major := some ((((dictGet s.results (toString item.id ++ "_temp")).getD {}).time_major).getD 0)
            time_sub := some ((((dictGet s.results (toString item.id ++ "_temp")).getD {}).time_sub).getD 0)
            time_ktas := some (round2 (now - or_time s.step_start_time now)) }
        current_index := s.current_index + 1
        current_step := STEP_MAJOR
        temp_major := none
        step_start_time := some now } := by
  have h0 : ¬ (s.current_step = STEP_MAJOR) := by rw [hstep]; decide
  have h1 : ¬ (s.current_step = STEP_SUB) := by rw [hstep]; decide
  unfold evaluation_confirm
  rw [hdata]
  dsimp only
  rw [hitem]
  dsimp only
  rw [if_neg h0, if_neg h1, if_pos hstep]

/-- Unfolding of the `다음` handler at the Major step. -/
theorem evaluation_confirm_major (s : SessionState) (data : List Item) (item : Item)
    (v : String) (now : ℚ) (hdata : s.data = some data)
    (hitem : data[s.current_index]? = some item) (hstep : s.current_step = STEP_MAJOR) :
    evaluation_confirm s (some v) now =
      some { s with
        temp_major := some v
        results := dictInsert s.results (toString item.id ++ "_temp")
          { major := some v, time_major := some (round2 (now - or_time s.step_start_time now)) }
        current_step := STEP_SUB
        step_start_time := some now } := by
  unfold evaluation_confirm
  rw [hdata]
  dsimp only
  rw [hitem]
  dsimp only
  rw [if_pos hstep]

/-- Unfolding of the `다음` handler at the Sub step. -/
theorem evaluation_confirm_sub (s : SessionState) (data : List Item) (item : Item)
    (v : String) (now : ℚ) (hdata : s.data = some data)
    (hitem : data[s.current_index]? = some item) (hstep : s.current_step = STEP_SUB) :
    evaluation_confirm s (some v) now =
      some { s with
        results := dictInsert s.results (toString item.id ++ "_temp")
          { (dictGet s.results (toString item.id ++ "_temp")).getD {} with
            sub := some v
            time_sub := some (round2 (now - or_time s.step_start_time now)) }
        current_step := STEP_KTAS
        step_start_time := some now } := by
  have h0 : ¬ (s.current_step = STEP_MAJOR) := by rw [hstep]; decide
  unfold evaluation_confirm
  rw [hdata]
  dsimp only
  rw [hitem]
  dsimp only
  rw [if_neg h0, if_pos hstep]

/-- Claim C1 (code bug evidence): in a reachable state whose only record is
the in-progress pending `…_temp` entry, the evaluation page's progress pair
(`len(st.session_state.results)`, total) is `(1, 1)` although the number of
finalized confirmed records is `0` (as the result page's filtered count
shows): the first component counts the pending selection. -/
theorem claim_c1_progress_counts_pending :
    evaluation_progress c1s = (1, 1)
    ∧ result_progress c1s = (0, 1)
    ∧ c1s.results = [("7_temp", { major := some "Chest", time_major := some 1 })] := by
  refine ⟨?_, ?_, ?_⟩ <;> with_unfolding_all decide

/-- Counterexample to claim C3 as stated: a successful start does NOT set the
confirmed-record map to empty — a record present before start survives it
unchanged. -/
theorem claim_c3_counterexample :
    (login_start c3s "E1" "ver1" [{ id := 9 }] none 1 0).results ≠ []
    ∧ (login_start c3s "E1" "ver1" [{ id := 9 }] none 1 0).results = [("9", c3_rec)] := by
  refine ⟨?_, ?_⟩ <;> with_unfolding_all decide

/-- Claim C3 (amended): for every non-blank evaluator id and in-range start
number, a successful start sets the pointer and start index to the 0-based
start position, the step to Major, and the pending major selection to null —
but it leaves the results map exactly as it was rather than clearing it (the
map is empty in every reachable login state, which is the only reason a fresh
session starts with no confirmed records). -/
theorem claim_c3_login_seeds_but_keeps_results (s : SessionState)
    (evaluator_id version : String) (data : List Item)
    (categories : Option AllCatMap) (start_number : Nat) (now : ℚ)
    (hid : pyStrip evaluator_id ≠ "") (h1 : 1 ≤ start_number)
    (h2 : start_number ≤ data.length) :
    (login_start s evaluator_id version data categories start_number now).current_index
        = start_number - 1
    ∧ (login_start s evaluator_id version data categories start_number now).start_index
        = start_number - 1
    ∧ (login_start s evaluator_id version data categories start_number now).current_step
        = STEP_MAJOR
    ∧ (login_start s evaluator_id version data categories start_number now).temp_major
        = none
    ∧ (login_start s evaluator_id version data categories start_number now).page
        = "evaluation"
    ∧ (login_start s evaluator_id version data categories start_number now).evaluator_id
        = pyStrip evaluator_id
    ∧ (login_start s evaluator_id version data categories start_number now).data
        = some data
    ∧ (login_start s evaluator_id version data categories start_number now).results
        = s.results := by
  unfold login_start
  rw [if_pos hid]
  exact ⟨rfl, rfl, rfl, rfl, rfl, rfl, rfl, rfl⟩

/-- Witness for the amended claim C3 at the concrete pre-login state with a
confirmed record. -/
theorem claim_c3_login_seeds_but_keeps_results_witness :
    (login_start c3s "E1" "ver1" [{ id := 9 }] none 1 0).current_index = 1 - 1
    ∧ (login_start c3s "E1" "ver1" [{ id := 9 }] none 1 0).start_index = 1 - 1
    ∧ (login_start c3s "E1" "ver1" [{ id := 9 }] none 1 0).current_step = STEP_MAJOR
    ∧ (login_start c3s "E1" "ver1" [{ id := 9 }] none 1 0).temp_major = none
    ∧ (login_start c3s "E1" "ver1" [{ id := 9 }] none 1 0).page = "evaluation"
    ∧ (login_start c3s "E1" "ver1" [{ id := 9 }] none 1 0).evaluator_id = pyStrip "E1"
    ∧ (login_start c3s "E1" "ver1" [{ id := 9 }] none 1 0).data = some [{ id := 9 }]
    ∧ (login_start c3s "E1" "ver1" [{ id := 9 }] none 1 0).results = c3s.results :=
  claim_c3_login_seeds_but_keeps_results c3s "E1" "ver1" [{ id := 9 }] none 1 0
    (by with_unfolding_all decide) (by decide) (by decide)

/-- Claim C2: at the KTAS (Triage) step, with a pending record holding the
chosen major/sub and their times and with a selected value, confirming
finalizes the record keyed by the item's id (the lookup at that key now yields
the new record, overwriting any prior one), clears the pending selection (both
the `…_temp` entry and `temp_major`), advances the pointer by exactly 1, sets
the step back to Major, and the export row built for that item carries the
item's id and the session's evaluator identifier together with the selections
and the three per-step times. -/
theorem claim_c2_ktas_finalize (s : SessionState) (data : List Item) (item : Item)
    (v maj sb : String) (tM tS : ℚ) (tr : ResultRecord) (now : ℚ)
    (hdata : s.data = some data) (hitem : data[s.current_index]? = some item)
    (hstep : s.current_step = STEP_KTAS)
    (htemp : dictGet s.results (toString item.id ++ "_temp") = some tr)
    (hmaj : tr.major = some maj) (hsub : tr.sub = some sb)
    (htM : tr.time_major = some tM) (htS : tr.time_sub = some tS)
    (hkey : strEndsWith (toString item.id) "_temp" = false) :
    ∃ s', evaluation_confirm s (some v) now = some s'
      ∧ dictGet s'.results (toString item.id) = some
          { major := some maj, sub := some sb, ktas := some v
            time_major := some tM, time_sub := some tS
            time_ktas := some (round2 (now - or_time s.step_start_time now)) }
      ∧ dictGet s'.results (toString item.id ++ "_temp") = none
      ∧ s'.temp_major = none
      ∧ s'.current_index = s.current_index + 1
      ∧ s'.current_step = STEP_MAJOR
      ∧ s'.evaluator_id = s.evaluator_id
      ∧ toRow s' item
          { major := some maj, sub := some sb, ktas := some v
            time_major := some tM, time_sub := some tS
            time_ktas := some (round2 (now - or_time s.step_start_time now)) }
          ∈ result_rows s'
      ∧ (toRow s' item
          { major := some maj, sub := some sb, ktas := some v
            time_major := some tM, time_sub := some tS
            time_ktas := some (round2 (now - or_time s.step_start_time now)) }).index
          = item.id
      ∧ (toRow s' item
          { major := some maj, sub := some sb, ktas := some v
            time_major := some tM, time_sub := some tS
            time_ktas := some (round2 (now - or_time s.step_start_time now)) }).evaluator
          = s.evaluator_id := by
  have hconf := evaluation_confirm_ktas s data item v now hdata hitem hstep
  rw [htemp] at hconf
  simp only [Option.getD_some, hmaj, hsub, htM, htS] at hconf
  refine ⟨_, hconf, ?_, ?_, rfl, rfl, rfl, rfl, ?_, rfl, rfl⟩
  · rw [dictGet_insert_self]
  · rw [dictGet_insert_ne _ _ _ _ (append_temp_ne (toString item.id)),
      dictGet_pop_self]
  · have hfin : dictGet (finalResults (dictInsert
        (dictPop s.results (toString item.id ++ "_temp")) (toString item.id)
        { major := some maj, sub := some sb, ktas := some v
          time_major := some tM, time_sub := some tS
          time_ktas := some (round2 (now - or_time s.step_start_time now)) }))
        (toString item.id) = some
        { major := some maj, sub := some sb, ktas := some v
          time_major := some tM, time_sub := some tS
          time_ktas := some (round2 (now - or_time s.step_start_time now)) } := by
      rw [dictGet_finalResults _ _ hkey, dictGet_insert_self]
    unfold result_rows
    dsimp only
    rw [hdata]
    apply List.mem_filterMap.mpr
    refine ⟨item, List.getElem?_mem hitem, ?_⟩
    rw [hfin]

/-- Witness for claim C2 at a concrete KTAS-step session. -/
theorem claim_c2_ktas_finalize_witness :
    ∃ s', evaluation_confirm c2s (some "L2") 14 = some s'
      ∧ dictGet s'.results (toString c2_item.id) = some
          { major := some "Headache", sub := some "Migraine", ktas := some "L2"
            time_major := some 2, time_sub := some 3
            time_ktas := some (round2 (14 - or_time c2s.step_start_time 14)) }
      ∧ dictGet s'.results (toString c2_item.id ++ "_temp") = none
      ∧ s'.temp_major = none
      ∧ s'.current_index = c2s.current_index + 1
      ∧ s'.current_step = STEP_MAJOR
      ∧ s'.evaluator_id = c2s.evaluator_id
      ∧ toRow s' c2_item
          { major := some "Headache", sub := some "Migraine", ktas := some "L2"
            time_major := some 2, time_sub := some 3
            time_ktas := some (round2 (14 - or_time c2s.step_start_time 14)) }
          ∈ result_rows s'
      ∧ (toRow s' c2_item
          { major := some "Headache", sub := some "Migraine", ktas := some "L2"
            time_major := some 2, time_sub := some 3
            time_ktas := some (round2 (14 - or_time c2s.step_start_time 14)) }).index
          = c2_item.id
      ∧ (toRow s' c2_item
          { major := some "Headache", sub := some "Migraine", ktas := some "L2"
            time_major := some 2, time_sub := some 3
            time_ktas := some (round2 (14 - or_time c2s.step_start_time 14)) }).evaluator
          = c2s.evaluator_id :=
  claim_c2_ktas_finalize c2s [c2_item] c2_item "L2" "Headache" "Migraine" 2 3 c2_tr 14
    rfl rfl rfl (by with_unfolding_all decide) rfl rfl rfl rfl
    (by with_unfolding_all decide)

/-- Claim C9: confirming at the KTAS step never fails for want of a pending
record: with no `…_temp` entry for the current item the finalized record is
still created, its major and sub defaulting to the empty string and the major
and sub times defaulting to 0, and the pointer still advances. -/
theorem claim_c9_missing_temp_defaults (s : SessionState) (data : List Item)
    (item : Item) (v : String) (now : ℚ) (hdata : s.data = some data)
    (hitem : data[s.current_index]? = some item) (hstep : s.current_step = STEP_KTAS)
    (htemp : dictGet s.results (toString item.id ++ "_temp") = none) :
    ∃ s', evaluation_confirm s (some v) now = some s'
      ∧ dictGet s'.results (toString item.id) = some
          { major := some "", sub := some "", ktas := some v
            time_major := some 0, time_sub := some 0
            time_ktas := some (round2 (now - or_time s.step_start_time now)) }
      ∧ s'.current_index = s.current_index + 1
      ∧ s'.current_step = STEP_MAJOR := by
  have hconf := evaluation_confirm_ktas s data item v now hdata hitem hstep
  rw [htemp] at hconf
  simp only [Option.getD_none] at hconf
  refine ⟨_, hconf, ?_, rfl, rfl⟩
  rw [dictGet_insert_self]

/-- Witness for claim C9 at a concrete session lacking the temp record. -/
theorem claim_c9_missing_temp_defaults_witness :
    ∃ s', evaluation_confirm c9s (some "L1") 7 = some s'
      ∧ dictGet s'.results (toString c9_item.id) = some
          { major := some "", sub := some "", ktas := some "L1"
            time_major := some 0, time_sub := some 0
            time_ktas := some (round2 (7 - or_time c9s.step_start_time 7)) }
      ∧ s'.current_index = c9s.current_index + 1
      ∧ s'.current_step = STEP_MAJOR :=
  claim_c9_missing_temp_defaults c9s [c9_item] c9_item "L1" 7 rfl rfl rfl rfl

/-- Claim C10: at each of the three steps, the elapsed-time value stored by a
confirmation — in the temp record's `time_major`/`time_sub`, or the finalized
record's `time_ktas` — is `round2` of the measured elapsed seconds, a rational
with denominator dividing 100 (two decimal places), not the raw measurement. -/
theorem claim_c10_times_rounded (s : SessionState) (data : List Item) (item : Item)
    (v : String) (now : ℚ) (hdata : s.data = some data)
    (hitem : data[s.current_index]? = some item) :
    (s.current_step = STEP_MAJOR → ∃ s' tr,
        evaluation_confirm s (some v) now = some s'
        ∧ dictGet s'.results (toString item.id ++ "_temp") = some tr
        ∧ tr.time_major = some (round2 (now - or_time s.step_start_time now)))
    ∧ (s.current_step = STEP_SUB → ∃ s' tr,
        evaluation_confirm s (some v) now = some s'
        ∧ dictGet s'.results (toString item.id ++ "_temp") = some tr
        ∧ tr.time_sub = some (round2 (now - or_time s.step_start_time now)))
    ∧ (s.current_step = STEP_KTAS → ∃ s' r,
        evaluation_confirm s (some v) now = some s'
        ∧ dictGet s'.results (toString item.id) = some r
        ∧ r.time_ktas = some (round2 (now - or_time s.step_start_time now)))
    ∧ ∃ n : ℤ, round2 (now - or_time s.step_start_time now) = (n : ℚ) / 100 := by
  refine ⟨?_, ?_, ?_, round2_den _⟩
  · intro hstep
    exact ⟨_, _, evaluation_confirm_major s data item v now hdata hitem hstep,
      dictGet_insert_self _ _ _, rfl⟩
  · intro hstep
    exact ⟨_, _, evaluation_confirm_sub s data item v now hdata hitem hstep,
      dictGet_insert_self _ _ _, rfl⟩
  · intro hstep
    exact ⟨_, _, evaluation_confirm_ktas s data item v now hdata hitem hstep,
      dictGet_insert_self _ _ _, rfl⟩

/-- Witness for claim C10: at the concrete Major-step session the stored
`time_major` is `round2` of the elapsed 1.234 s, and that rounding differs
from the raw measurement. -/
theorem claim_c10_times_rounded_witness :
    ((c10s.current_step = STEP_MAJOR → ∃ s' tr,
        evaluation_confirm c10s (some "Chest") (2234 / 1000) = some s'
        ∧ dictGet s'.results (toString c10_item.id ++ "_temp") = some tr
        ∧ tr.time_major = some (round2 ((2234 / 1000)
            - or_time c10s.step_start_time (2234 / 1000))))
    ∧ (c10s.current_step = STEP_SUB → ∃ s' tr,
        evaluation_confirm c10s (some "Chest") (2234 / 1000) = some s'
        ∧ dictGet s'.results (toString c10_item.id ++ "_temp") = some tr
        ∧ tr.time_sub = some (round2 ((2234 / 1000)
            - or_time c10s.step_start_time (2234 / 1000))))
    ∧ (c10s.current_step = STEP_KTAS → ∃ s' r,
        evaluation_confirm c10s (some "Chest") (2234 / 1000) = some s'
        ∧ dictGet s'.results (toString c10_item.id) = some r
        ∧ r.time_ktas = some (round2 ((2234 / 1000)
            - or_time c10s.step_start_time (2234 / 1000))))
    ∧ ∃ n : ℤ, round2 ((2234 / 1000) - or_time c10s.step_start_time (2234 / 1000))
        = (n : ℚ) / 100)
    ∧ round2 ((2234 / 1000) - or_time c10s.step_start_time (2234 / 1000))
        ≠ (2234 / 1000) - or_time c10s.step_start_time (2234 / 1000) :=
  ⟨claim_c10_times_rounded c10s [c10_item] c10_item "Chest" (2234 / 1000) rfl rfl,
   by with_unfolding_all decide⟩

theorem dictGet_append_of_some {α : Type} (d e : List (String × α)) (k : String)
    (v : α) (h : dictGet d k = some v) : dictGet (d ++ e) k = some v := by
  induction d with
  | nil => simp [dictGet] at h
  | cons p rest ih =>
    rw [dictGet_cons] at h
    rw [List.cons_append, dictGet_cons]
    by_cases hp : p.1 = k
    · rw [if_pos hp] at h ⊢
      exact h
    · rw [if_neg hp] at h ⊢
      exact ih h

theorem dictGet_addCatRow_self (m : List (String × List String)) (maj sub : String) :
    dictGet (addCatRow m (maj, sub)) maj
      = some (dedupAppend ((dictGet m maj).getD []) sub) := by
  unfold addCatRow dedupAppend
  dsimp only
  by_cases hs : (dictGet m maj).isSome = true
  · rw [if_pos hs]
    cases hd : dictGet m maj with
    | none => rw [hd] at hs; simp at hs
    | some cur =>
      simp only [hd, Option.getD_some]
      by_cases hmem : sub ∈ cur
      · rw [if_pos hmem, if_pos hmem]
        exact hd
      · rw [if_neg hmem, if_neg hmem]
        exact dictGet_insert_self m maj (cur ++ [sub])
  · rw [if_neg hs]
    have hnone : dictGet m maj = none := by
      cases hd : dictGet m maj
      · rfl
      · rw [hd] at hs; simp at hs
    have hget : dictGet (m ++ [(maj, [])]) maj = some [] := by
      rw [dictGet_append_of_none _ _ _ hnone]
      simp [dictGet_cons]
    rw [hget, hnone]
    simp only [Option.getD_some, Option.getD_none, List.not_mem_nil, if_false,
      List.nil_append]
    exact dictGet_insert_self _ maj [sub]

theorem dictGet_addCatRow_ne (m : List (String × List String)) (maj sub k : String)
    (h : k ≠ maj) : dictGet (addCatRow m (maj, sub)) k = dictGet m k := by
  have hmk : ¬ (maj = k) := fun hc => h hc.symm
  unfold addCatRow
  dsimp only
  by_cases hs : (dictGet m maj).isSome = true
  · rw [if_pos hs]
    by_cases hmem : sub ∈ (dictGet m maj).getD []
    · rw [if_pos hmem]
    · rw [if_neg hmem, dictGet_insert_ne _ _ _ _ h]
  · rw [if_neg hs]
    have hone : dictGet (m ++ [(maj, [])]) k = dictGet m k := by
      cases hd : dictGet m k with
      | none =>
        rw [dictGet_append_of_none _ _ _ hd, dictGet_cons, if_neg hmk]
        rfl
      | some cur => exact dictGet_append_of_some _ _ _ _ hd
    by_cases hmem : sub ∈ (dictGet (m ++ [(maj, [])]) maj).getD []
    · rw [if_pos hmem]
      exact hone
    · rw [if_neg hmem, dictGet_insert_ne _ _ _ _ h]
      exact hone

theorem subsFor_cons_self (maj sub : String) (rest : List CatRow) :
    subsFor ((maj, sub) :: rest) maj = sub :: subsFor rest maj := by
  unfold subsFor
  rw [List.filter_cons, if_pos (by simp)]
  rfl

theorem subsFor_cons_ne (maj sub : String) (rest : List CatRow) (k : String)
    (h : k ≠ maj) : subsFor ((maj, sub) :: rest) k = subsFor rest k := by
  have hmk : ¬ (maj = k) := fun hc => h hc.symm
  unfold subsFor
  rw [List.filter_cons, if_neg (by simp [hmk])]

theorem buildCatMap_fold (rows : List CatRow) :
    ∀ (m : List (String × List String)) (k : String),
      dictGet (rows.foldl addCatRow m) k =
        match dictGet m k with
        | some cur => some (dedupInto cur (subsFor rows k))
        | none =>
          if subsFor rows k = [] then none
          else some (dedupInto [] (subsFor rows k)) := by
  induction rows with
  | nil =>
    intro m k
    cases hd : dictGet m k with
    | none => simp [subsFor, dedupInto, List.foldl_nil, hd]
    | some cur => simp [subsFor, dedupInto, List.foldl_nil, hd]
  | cons r rest ih =>
    intro m k
    obtain ⟨maj, sub⟩ := r
    rw [List.foldl_cons, ih (addCatRow m (maj, sub)) k]
    by_cases hk : k = maj
    · subst hk
      rw [dictGet_addCatRow_self, subsFor_cons_self]
      cases hd : dictGet m k with
      | none =>
        simp only [hd, Option.getD_none]
        rw [if_neg (List.cons_ne_nil _ _)]
        rfl
      | some cur =>
        simp only [hd, Option.getD_some]
        rfl
    · rw [dictGet_addCatRow_ne _ _ _ _ hk, subsFor_cons_ne _ _ _ _ hk]

theorem dictGet_buildCatMap (rows : List CatRow) (k : String) :
    dictGet (buildCatMap rows) k =
      if subsFor rows k = [] then none
      else some (dedupInto [] (subsFor rows k)) := by
  unfold buildCatMap
  rw [buildCatMap_fold rows [] k]
  rfl

theorem dedupInto_exists (l : List String) :
    ∀ c : List String, ∃ t, dedupInto c l = c ++ t ∧ List.Sublist t l ∧ t.Nodup
      ∧ ∀ a ∈ t, a ∉ c := by
  induction l with
  | nil =>
    intro c
    exact ⟨[], by simp [dedupInto], List.nil_sublist _, List.nodup_nil, by simp⟩
  | cons s l ih =>
    intro c
    have hstep : dedupInto c (s :: l) = dedupInto (dedupAppend c s) l := rfl
    by_cases hs : s ∈ c
    · obtain ⟨t, h1, h2, h3, h4⟩ := ih c
      refine ⟨t, ?_, h2.cons s, h3, h4⟩
      rw [hstep]
      unfold dedupAppend
      rw [if_pos hs]
      exact h1
    · obtain ⟨t, h1, h2, h3, h4⟩ := ih (c ++ [s])
      refine ⟨s :: t, ?_, h2.cons₂ s, ?_, ?_⟩
      · rw [hstep]
        unfold dedupAppend
        rw [if_neg hs, h1, List.append_assoc]
        rfl
      · refine List.nodup_cons.mpr ⟨?_, h3⟩
        intro hmem
        exact h4 s hmem (by simp)
      · intro a ha
        rcases List.mem_cons.mp ha with hae | hat
        · rw [hae]
          exact hs
        · intro hac
          exact h4 a hat (List.mem_append_left _ hac)

theorem dedupInto_nil_nodup (l : List String) : (dedupInto [] l).Nodup := by
  obtain ⟨t, h1, _, h3, _⟩ := dedupInto_exists l []
  rw [h1, List.nil_append]
  exact h3

theorem dedupInto_nil_sublist (l : List String) : List.Sublist (dedupInto [] l) l := by
  obtain ⟨t, h1, h2, _, _⟩ := dedupInto_exists l []
  rw [h1, List.nil_append]
  exact h2

/-- The sheet `_get_cat_map_for_item` finds in a `load_categories` result is
exactly the built map of the sheet the item's bracket selects (or `none` when
that sheet was missing). -/
theorem get_cat_map_for_item_load (adult ped : Option (List CatRow)) (item : Item) :
    get_cat_map_for_item (load_categories adult ped) item
      = Option.map buildCatMap (if item.age = "15세 미만" then ped else adult) := by
  have hdiff : ¬ (("성인" : String) = "소아") := by decide
  have hdiff2 : ¬ (("소아" : String) = "성인") := by decide
  have hsame : (("소아" : String) = "소아") := rfl
  have hasame : (("성인" : String) = "성인") := rfl
  cases adult with
  | none =>
    cases ped with
    | none =>
      by_cases hage : item.age = "15세 미만" <;>
        simp [load_categories, get_cat_map_for_item, hage]
    | some prow =>
      have hload : load_categories none (some prow) = some [("소아", buildCatMap prow)] := by
        unfold load_categories
        rfl
      rw [hload]
      unfold get_cat_map_for_item
      dsimp only
      by_cases hage : item.age = "15세 미만"
      · rw [if_pos hage, if_pos hage, dictGet_cons, if_pos hsame]
        rfl
      · rw [if_neg hage, if_neg hage, dictGet_cons, if_neg hdiff2]
        rfl
  | some arow =>
    cases ped with
    | none =>
      have hload : load_categories (some arow) none = some [("성인", buildCatMap arow)] := by
        unfold load_categories
        rfl
      rw [hload]
      unfold get_cat_map_for_item
      dsimp only
      by_cases hage : item.age = "15세 미만"
      · rw [if_pos hage, if_pos hage, dictGet_cons, if_neg hdiff]
        rfl
      · rw [if_neg hage, if_neg hage, dictGet_cons, if_pos hasame]
        rfl
    | some prow =>
      have hins : dictGet [("성인", buildCatMap arow)] "소아" = none := by
        rw [dictGet_cons, if_neg hdiff]
        rfl
      have hm2 : dictInsert [("성인", buildCatMap arow)] "소아" (buildCatMap prow)
          = [("성인", buildCatMap arow), ("소아", buildCatMap prow)] := by
        unfold dictInsert
        rw [hins]
        rfl
      have hload : load_categories (some arow) (some prow)
          = some [("성인", buildCatMap arow), ("소아", buildCatMap prow)] := by
        unfold load_categories
        dsimp only
        rw [show dictInsert ([] : AllCatMap) "성인" (buildCatMap arow)
              = [("성인", buildCatMap arow)] from rfl, hm2]
        rfl
      rw [hload]
      unfold get_cat_map_for_item
      dsimp only
      by_cases hage : item.age = "15세 미만"
      · rw [if_pos hage, if_pos hage, dictGet_cons, if_neg hdiff, dictGet_cons,
          if_pos hsame]
        rfl
      · rw [if_neg hage, if_neg hage, dictGet_cons, if_pos hasame]
        rfl

/-- Claim C4: at the Sub step with a (truthy) pending major, when the sheet
the item's bracket selects maps that major, the offered options are exactly
the sheet's sub-list: first-appearance deduplication of the sub-categories the
source listed under that major, in source order (a duplicate-free sublist of
the source column); when the major is absent from the bracket's sheet, or that
sheet (or the whole taxonomy) was not loaded, the options are the item's own
default `sub_categories` list. -/
theorem claim_c4_sub_options (s : SessionState) (item : Item) (m : String)
    (adult ped : Option (List CatRow)) (hstep : s.current_step = STEP_SUB)
    (hcat : s.categories = load_categories adult ped)
    (hpend : s.temp_major = some m) (hm : m ≠ "") :
    (∀ rows l, (if item.age = "15세 미만" then ped else adult) = some rows →
        dictGet (buildCatMap rows) m = some l →
        current_options s item = l ∧ l.Nodup ∧ List.Sublist l (subsFor rows m)
          ∧ l = dedupInto [] (subsFor rows m))
    ∧ (∀ rows, (if item.age = "15세 미만" then ped else adult) = some rows →
        dictGet (buildCatMap rows) m = none →
        current_options s item = item.sub_categories)
    ∧ ((if item.age = "15세 미만" then ped else adult) = none →
        current_options s item = item.sub_categories) := by
  have hopts : current_options s item = get_sub_categories_for_major s.categories m item := by
    unfold current_options
    rw [hstep]
    rw [if_neg (by decide), if_pos rfl]
    unfold sub_step_options
    rw [hpend]
    dsimp only
    rw [if_neg hm]
  have hmap : get_cat_map_for_item s.categories item
      = Option.map buildCatMap (if item.age = "15세 미만" then ped else adult) := by
    rw [hcat]
    exact get_cat_map_for_item_load adult ped item
  refine ⟨?_, ?_, ?_⟩
  · intro rows l hsheet hget
    have hchar := dictGet_buildCatMap rows m
    rw [hget] at hchar
    have hsubs : ¬ (subsFor rows m = []) := by
      intro hc
      rw [if_pos hc] at hchar
      exact Option.noConfusion hchar
    rw [if_neg hsubs] at hchar
    have hl : l = dedupInto [] (subsFor rows m) := Option.some.inj hchar
    have hne : (buildCatMap rows).isEmpty = false := by
      cases hb : buildCatMap rows with
      | nil => rw [hb, dictGet_nil] at hget; exact Option.noConfusion hget
      | cons q rest => rfl
    refine ⟨?_, ?_, ?_, hl⟩
    · rw [hopts]
      unfold get_sub_categories_for_major
      rw [hmap, hsheet]
      simp only [Option.map]
      rw [hne, if_neg (by simp), hget]
    · rw [hl]
      exact dedupInto_nil_nodup _
    · rw [hl]
      exact dedupInto_nil_sublist _
  · intro rows hsheet hget
    rw [hopts]
    unfold get_sub_categories_for_major
    rw [hmap, hsheet]
    simp only [Option.map]
    cases he : (buildCatMap rows).isEmpty with
    | true => rfl
    | false =>
      rw [if_neg (by simp), hget]
  · intro hsheet
    rw [hopts]
    unfold get_sub_categories_for_major
    rw [hmap, hsheet]
    rfl

/-- Witness for claim C4: the duplicate listing of `A` is collapsed, first
appearances keep their order, and the pediatric item falls back to its own
sub-list because its sheet is missing. -/
theorem claim_c4_sub_options_witness :
    current_options c4s c4_item = ["A", "B"]
    ∧ (["A", "B"] : List String).Nodup
    ∧ List.Sublist (["A", "B"] : List String) (subsFor c4rows "Chest")
    ∧ (["A", "B"] : List String) = dedupInto [] (subsFor c4rows "Chest")
    ∧ current_options c4s c4_item_ped = c4_item_ped.sub_categories := by
  have h := claim_c4_sub_options c4s c4_item "Chest" (some c4rows) none rfl rfl rfl
    (by decide)
  have ha := h.1 c4rows ["A", "B"] (by with_unfolding_all decide)
    (by with_unfolding_all decide)
  have hp := (claim_c4_sub_options c4s c4_item_ped "Chest" (some c4rows) none rfl rfl
    rfl (by decide)).2.2 (by with_unfolding_all decide)
  exact ⟨ha.1, ha.2.1, ha.2.2.1, ha.2.2.2, hp⟩

theorem dictGet_isSome_iff_mem_keys {α : Type} (d : List (String × α)) (k : String) :
    (dictGet d k).isSome = true ↔ k ∈ d.map Prod.fst := by
  induction d with
  | nil => simp [dictGet]
  | cons p rest ih =>
    rw [dictGet_cons, List.map_cons]
    by_cases hp : p.1 = k
    · rw [if_pos hp]
      simp [hp]
    · rw [if_neg hp]
      constructor
      · intro h
        exact List.mem_cons_of_mem _ (ih.mp h)
      · intro h
        rcases List.mem_cons.mp h with he | hm
        · exact absurd he.symm hp
        · exact ih.mpr hm

theorem length_filterMap_eq_filter {α β : Type} (l : List α) (f : α → Option β) :
    (l.filterMap f).length = (l.filter (fun a => (f a).isSome)).length := by
  induction l with
  | nil => rfl
  | cons a l ih =>
    cases hf : f a with
    | none =>
      rw [List.filterMap_cons_none hf, List.filter_cons, if_neg (by simp [hf])]
      exact ih
    | some b =>
      rw [List.filterMap_cons_some hf, List.filter_cons, if_pos (by simp [hf])]
      simp only [List.length_cons]
      rw [ih]

theorem rows_map_index_sublist (finals : List (String × ResultRecord))
    (s : SessionState) (l : List Item) :
    List.Sublist ((l.filterMap (fun item =>
        match dictGet finals (toString item.id) with
        | some result => some (toRow s item result)
        | none => none)).map (fun row => row.index))
      (l.map (fun it => it.id)) := by
  induction l with
  | nil => simp
  | cons it l ih =>
    cases hd : dictGet finals (toString it.id) with
    | none =>
      rw [List.filterMap_cons_none (by rw [hd]), List.map_cons]
      exact ih.cons _
    | some r =>
      rw [List.filterMap_cons_some (by rw [hd]), List.map_cons, List.map_cons]
      exact ih.cons₂ _

theorem finalResults_sublist (results : List (String × ResultRecord)) :
    List.Sublist (finalResults results) results := by
  unfold finalResults
  exact List.filter_sublist _

/-- Claim C7: the result rows are computed without consulting the current
step (finalize is callable at any step, Complete not required); they contain
exactly one row per finalized record (after confirming `k` of `n` items the
row count is `k`); every row is the export of some finalized item; the row
indices form a subsequence of the original item-id order; and an item with no
finalized record contributes no row (pending temp entries included — they are
filtered out of `final_results`). Hypotheses record what every reachable
session satisfies: the id keys of items are pairwise distinct (unique ids),
every finalized key belongs to some item, and the results dict has no
duplicate keys. -/
theorem claim_c7_finalize_rows (s : SessionState) (data : List Item)
    (hdata : s.data = some data)
    (hids : (data.map (fun it => toString it.id)).Nodup)
    (hkeys : ∀ p ∈ finalResults s.results, p.1 ∈ data.map (fun it => toString it.id))
    (hnodup : (s.results.map Prod.fst).Nodup) :
    (result_rows s).length = (finalResults s.results).length
    ∧ List.Sublist ((result_rows s).map (fun row => row.index))
        (data.map (fun it => it.id))
    ∧ (∀ row ∈ result_rows s, ∃ it ∈ data, ∃ r,
        dictGet (finalResults s.results) (toString it.id) = some r
        ∧ row = toRow s it r)
    ∧ (∀ it ∈ data, dictGet (finalResults s.results) (toString it.id) = none →
        ∀ row ∈ result_rows s, row.index ≠ it.id)
    ∧ (∀ n : Nat, result_rows { s with current_step := n } = result_rows s) := by
  have hrr : result_rows s = data.filterMap (fun item =>
      match dictGet (finalResults s.results) (toString item.id) with
      | some result => some (toRow s item result)
      | none => none) := by
    unfold result_rows
    rw [hdata, Option.getD_some]
  have hfrom : ∀ row ∈ result_rows s, ∃ it ∈ data, ∃ r,
      dictGet (finalResults s.results) (toString it.id) = some r
      ∧ row = toRow s it r := by
    intro row hrow
    rw [hrr] at hrow
    obtain ⟨it, hmem, hf⟩ := List.mem_filterMap.mp hrow
    cases hd : dictGet (finalResults s.results) (toString it.id) with
    | none =>
      rw [hd] at hf
      simp at hf
    | some r =>
      rw [hd] at hf
      exact ⟨it, hmem, r, hd, (Option.some.inj hf).symm⟩
  refine ⟨?_, ?_, hfrom, ?_, ?_⟩
  · rw [hrr, length_filterMap_eq_filter]
    have hcong : data.filter (fun it => (match
          dictGet (finalResults s.results) (toString it.id) with
        | some result => some (toRow s it result)
        | none => none).isSome)
        = data.filter (fun it =>
            (dictGet (finalResults s.results) (toString it.id)).isSome) := by
      apply List.filter_congr
      intro it _
      cases hd : dictGet (finalResults s.results) (toString it.id) <;> simp [hd]
    rw [hcong]
    have hfnodup : ((finalResults s.results).map Prod.fst).Nodup :=
      hnodup.sublist ((finalResults_sublist s.results).map Prod.fst)
    have hlnodup : ((data.filter (fun it =>
        (dictGet (finalResults s.results) (toString it.id)).isSome)).map
          (fun it => toString it.id)).Nodup :=
      hids.sublist ((List.filter_sublist data).map (fun it => toString it.id))
    have hmemiff : ∀ x, x ∈ (data.filter (fun it =>
          (dictGet (finalResults s.results) (toString it.id)).isSome)).map
            (fun it => toString it.id)
        ↔ x ∈ (finalResults s.results).map Prod.fst := by
      intro x
      constructor
      · intro hx
        obtain ⟨it, hitmem, hgx⟩ := List.mem_map.mp hx
        have hP := (List.mem_filter.mp hitmem).2
        rw [← hgx]
        exact (dictGet_isSome_iff_mem_keys _ _).mp hP
      · intro hx
        obtain ⟨p, hpmem, hpx⟩ := List.mem_map.mp hx
        have hxid : x ∈ data.map (fun it => toString it.id) := by
          rw [← hpx]
          exact hkeys p hpmem
        obtain ⟨it, hitmem, hgx⟩ := List.mem_map.mp hxid
        apply List.mem_map.mpr
        refine ⟨it, List.mem_filter.mpr ⟨hitmem, ?_⟩, hgx⟩
        rw [hgx]
        exact (dictGet_isSome_iff_mem_keys _ _).mpr hx
    have hperm := (List.perm_ext_iff_of_nodup hlnodup hfnodup).mpr hmemiff
    calc (data.filter (fun it =>
          (dictGet (finalResults s.results) (toString it.id)).isSome)).length
        = ((data.filter (fun it =>
            (dictGet (finalResults s.results) (toString it.id)).isSome)).map
              (fun it => toString it.id)).length := (List.length_map _ _).symm
      _ = ((finalResults s.results).map Prod.fst).length := hperm.length_eq
      _ = (finalResults s.results).length := List.length_map _ _
  · rw [hrr]
    exact rows_map_index_sublist _ _ _
  · intro it hitmem hnone row hrow heq
    obtain ⟨it2, _, r, hget2, hrow2⟩ := hfrom row hrow
    have hidx : it2.id = it.id := by
      rw [hrow2] at heq
      exact heq
    have hkey : toString it2.id = toString it.id := by rw [hidx]
    rw [hkey] at hget2
    rw [hnone] at hget2
    exact Option.noConfusion hget2
  · intro n
    rfl

/-- Witness for claim C7 at a concrete 2-of-5 session: the conclusions of the
theorem hold, the row count is exactly 2, and the rows carry the ids 1 and 3
in the original order. -/
theorem claim_c7_finalize_rows_witness :
    ((result_rows c7s).length = (finalResults c7s.results).length
    ∧ List.Sublist ((result_rows c7s).map (fun row => row.index))
        (c7_items.map (fun it => it.id))
    ∧ (∀ row ∈ result_rows c7s, ∃ it ∈ c7_items, ∃ r,
        dictGet (finalResults c7s.results) (toString it.id) = some r
        ∧ row = toRow c7s it r)
    ∧ (∀ it ∈ c7_items, dictGet (finalResults c7s.results) (toString it.id) = none →
        ∀ row ∈ result_rows c7s, row.index ≠ it.id)
    ∧ (∀ n : Nat, result_rows { c7s with current_step := n } = result_rows c7s))
    ∧ (result_rows c7s).length = 2
    ∧ (result_rows c7s).map (fun row => row.index) = [1, 3] :=
  ⟨claim_c7_finalize_rows c7s c7_items rfl (by with_unfolding_all decide)
      (by with_unfolding_all decide) (by with_unfolding_all decide),
   by with_unfolding_all decide,
   by with_unfolding_all decide⟩
